import Mathlib

/-!
Shallow embedding of the PSPhasor phasor registry
(`src/PSPhasor/phasor_system.py`, class `PhasorManager`).

The registry state is the `self.phasors` dictionary, a map from phasor
name to the stored record built in step 6 of `draw_phasor`.  Real-valued
coordinates are modelled by `ℝ`; `np.arctan2` is `Complex.arg`,
`np.radians`/`np.degrees` are the usual scalings by `π/180`.  Optional
(`None`-able) arguments are `Option`s; a Python `raise` is an `Except.error`
together with the unchanged registry (the dictionary write in step 6 is the
only mutation of `self.phasors`, so an exception leaves it untouched).
Supplying exactly one of `end_x`, `end_y` makes the Python code evaluate
`None - float` inside `quiver`, a `TypeError`; that path is `DrawError.typeError`.
-/

namespace PSPhasor

noncomputable section

/-- Model of `np.arctan2 y x`: the angle of the point `(x, y)` in `(-π, π]`;
`arctan2 0 0 = 0`, matching numpy. -/
def arctan2 (y x : ℝ) : ℝ := Complex.arg ⟨x, y⟩

/-- Model of `np.radians` (degrees to radians). -/
def radians (d : ℝ) : ℝ := d * (Real.pi / 180)

/-- Model of `np.degrees` (radians to degrees). -/
def degrees (r : ℝ) : ℝ := r * (180 / Real.pi)

/-- Python `str.lower()` (ASCII letters, which is all the code compares). -/
def lower (s : String) : String := String.mk (s.data.map Char.toLower)

/-- One stored record `self.phasors[name]` (step 6 of `draw_phasor`). -/
structure PhasorRecord where
  name : String
  type : String
  start_x : ℝ
  start_y : ℝ
  end_x : ℝ
  end_y : ℝ
  magnitude : ℝ
  angle_deg : ℝ
  color : String

/-- The `self.phasors` dictionary: name → stored record. -/
def Registry := String → Option PhasorRecord

/-- A freshly constructed (or `clear()`ed) manager has an empty dictionary. -/
def Registry.empty : Registry := fun _ => none

/-- Python dict assignment `self.phasors[name] = r` (overwrites). -/
def Registry.insert (reg : Registry) (n : String) (r : PhasorRecord) : Registry :=
  fun m => if m = n then some r else reg m

/-- The arguments of `draw_phasor`, with the Python default values. -/
structure DrawArgs where
  name : String
  magnitude : Option ℝ := none
  angle : Option ℝ := none
  start_ref : String := "abs"
  start_x : ℝ := 0
  start_y : ℝ := 0
  end_x : Option ℝ := none
  end_y : Option ℝ := none
  ref_point : String := "end"
  phasor_type : String := "voltage"
  color : Option String := none

/-- The exceptions `draw_phasor` can raise before reaching the dictionary
write: the two explicit `ValueError`s, and the `TypeError` from arithmetic
on a partially supplied end point. -/
inductive DrawError where
  | unknownReference (ref : String)
  | missingGeometry
  | typeError
deriving DecidableEq

/-- Step 1 of `draw_phasor`: resolve the start point.  If `start_ref` is not
`"abs"`, the caller-supplied `start_x`/`start_y` are overwritten from the
referenced phasor's stored `end` or `start` point. -/
def resolveStart (reg : Registry) (a : DrawArgs) : Except DrawError (ℝ × ℝ) :=
  if a.start_ref = "abs" then .ok (a.start_x, a.start_y)
  else
    match reg a.start_ref with
    | none => .error (.unknownReference a.start_ref)
    | some ref =>
      if a.ref_point = "end" then .ok (ref.end_x, ref.end_y)
      else .ok (ref.start_x, ref.start_y)

/-- Step 2 of `draw_phasor`: determine the end coordinates.  The polar branch
runs only when `end_x` and `end_y` are both `None`; inside it, a missing
`magnitude` or `angle` raises the `ValueError` "Either (end_x, end_y) or
(magnitude, angle) must be provided.".  With exactly one of `end_x`, `end_y`
supplied the later arithmetic on `None` raises a `TypeError`. -/
def resolveEnd (sx sy : ℝ) (a : DrawArgs) : Except DrawError (ℝ × ℝ) :=
  match a.end_x, a.end_y with
  | none, none =>
    match a.magnitude, a.angle with
    | some m, some ang =>
      .ok (sx + m * Real.cos (radians ang), sy + m * Real.sin (radians ang))
    | _, _ => .error .missingGeometry
  | some ex, some ey => .ok (ex, ey)
  | _, _ => .error .typeError

/-- Step 3 of `draw_phasor`: default color. -/
def defaultColor (a : DrawArgs) : String :=
  match a.color with
  | some c => c
  | none => if lower a.phasor_type = "voltage" then "blue" else "red"

/-- Step 6 of `draw_phasor`: the stored dictionary value. -/
def mkRecord (a : DrawArgs) (sx sy ex ey : ℝ) : PhasorRecord :=
  { name := a.name
    type := lower a.phasor_type
    start_x := sx
    start_y := sy
    end_x := ex
    end_y := ey
    magnitude := Real.sqrt ((ex - sx) ^ 2 + (ey - sy) ^ 2)
    angle_deg := degrees (arctan2 (ey - sy) (ex - sx))
    color := defaultColor a }

/-- Model of `PhasorManager.draw_phasor`, restricted to its registry effect: returns
the dictionary after the call together with the stored record, or the raised
exception (in which case the dictionary is unchanged). -/
def draw_phasor (reg : Registry) (a : DrawArgs) : Registry × Except DrawError PhasorRecord :=
  match resolveStart reg a with
  | .error e => (reg, .error e)
  | .ok (sx, sy) =>
    match resolveEnd sx sy a with
    | .error e => (reg, .error e)
    | .ok (ex, ey) =>
      let r := mkRecord a sx sy ex ey
      (reg.insert a.name r, .ok r)

/-- Model of `PhasorManager.get_phasor`. -/
def get_phasor (reg : Registry) (n : String) : Option PhasorRecord := reg n

/-- Model of `PhasorManager.clear` (its registry effect). -/
def clear (_ : Registry) : Registry := Registry.empty

/-- Registries reachable from a fresh manager by `draw_phasor` calls. -/
inductive Reachable : Registry → Prop where
  | empty : Reachable Registry.empty
  | step (reg : Registry) (a : DrawArgs) : Reachable reg → Reachable (draw_phasor reg a).1

/-- Concrete input: the `Vs` phasor of the module's own demo (`main`),
with magnitude 1 to keep the arithmetic small. -/
def vsArgs : DrawArgs := { name := "Vs", magnitude := some 1, angle := some 0 }

/-- The record `draw_phasor` stores for `vsArgs` on an empty registry. -/
def vsRecord : PhasorRecord :=
  mkRecord vsArgs 0 0 (0 + 1 * Real.cos (radians 0)) (0 + 1 * Real.sin (radians 0))

/-- Concrete stored record used as a reference target. -/
def recA : PhasorRecord :=
  { name := "A", type := "voltage", start_x := 0, start_y := 0, end_x := 3, end_y := 4
    magnitude := 5, angle_deg := 0, color := "blue" }

/-- A registry holding just `recA` under the name `"A"`. -/
def regA : Registry := Registry.empty.insert "A" recA

/-- Concrete input referencing the end of `"A"`, with a Cartesian end point. -/
def bArgs : DrawArgs := { name := "B", start_ref := "A", end_x := some 1, end_y := some 1 }

/-- The record `draw_phasor` stores for `bArgs` on `regA`. -/
def bRecord : PhasorRecord := mkRecord bArgs 3 4 1 1

/-- Concrete input with an unknown reference and no geometry at all. -/
def unknownRefNoGeom : DrawArgs := { name := "B", start_ref := "Q" }

/-- A second concrete input with an unknown reference and absent magnitude. -/
def unknownRefNoMag : DrawArgs := { name := "C", start_ref := "R", angle := some 0 }

/-- Concrete input: absolute anchor, no geometry supplied. -/
def noGeomArgs : DrawArgs := { name := "N" }

/-- Concrete input: a degenerate polar phasor, magnitude 0 at angle 180. -/
def zeroPolarArgs : DrawArgs := { name := "P", magnitude := some 0, angle := some 180 }

/-- Concrete input of a kind that is neither voltage nor current. -/
def impArgs : DrawArgs :=
  { name := "Z", magnitude := some 1, angle := some 0, phasor_type := "impedance" }

/-- Concrete input of kind current without a caller-supplied color. -/
def curArgs : DrawArgs :=
  { name := "I", magnitude := some 1, angle := some 0, phasor_type := "current" }

/-- Concrete Cartesian input anchored at the origin. -/
def cartArgs : DrawArgs := { name := "Vr", end_x := some 1, end_y := some 0 }

/-- Concrete input referencing `"A"` with a polar spec (for the
noninterference witness). -/
def b2Args : DrawArgs :=
  { name := "B2", start_ref := "A", magnitude := some 2, angle := some 90 }

end

/-- The normalized angle `degrees (arctan2 y x)` always lies in `(-180, 180]`,
because `Complex.arg` lands in `(-π, π]`. -/
lemma degrees_arctan2_mem (y x : ℝ) :
    -180 < degrees (arctan2 y x) ∧ degrees (arctan2 y x) ≤ 180 := by
  have h := Complex.arg_mem_Ioc ⟨x, y⟩
  have hπ : (0:ℝ) < Real.pi := Real.pi_pos
  have hne : Real.pi ≠ 0 := ne_of_gt hπ
  have hd : (0:ℝ) < 180 / Real.pi := by positivity
  unfold degrees arctan2
  constructor
  · calc (-180:ℝ) = -Real.pi * (180 / Real.pi) := by field_simp; ring
    _ < Complex.arg ⟨x, y⟩ * (180 / Real.pi) := mul_lt_mul_of_pos_right h.1 hd
  · calc Complex.arg ⟨x, y⟩ * (180 / Real.pi) ≤ Real.pi * (180 / Real.pi) :=
        mul_le_mul_of_nonneg_right h.2 hd.le
    _ = 180 := by field_simp

/-- Equation lemma: `draw_phasor` when the start point fails to resolve. -/
lemma dp_start_error (reg : Registry) (a : DrawArgs) (e : DrawError)
    (h : resolveStart reg a = .error e) : draw_phasor reg a = (reg, .error e) := by
  unfold draw_phasor
  rw [h]

/-- Equation lemma: `draw_phasor` when the end point fails to resolve. -/
lemma dp_end_error (reg : Registry) (a : DrawArgs) (sx sy : ℝ) (e : DrawError)
    (hs : resolveStart reg a = .ok (sx, sy)) (he : resolveEnd sx sy a = .error e) :
    draw_phasor reg a = (reg, .error e) := by
  unfold draw_phasor
  rw [hs]
  simp only [he]

/-- Equation lemma: a successful `draw_phasor` call. -/
lemma dp_ok (reg : Registry) (a : DrawArgs) (sx sy ex ey : ℝ)
    (hs : resolveStart reg a = .ok (sx, sy)) (he : resolveEnd sx sy a = .ok (ex, ey)) :
    draw_phasor reg a =
      (reg.insert a.name (mkRecord a sx sy ex ey), .ok (mkRecord a sx sy ex ey)) := by
  unfold draw_phasor
  rw [hs]
  simp only [he]

/-- Case analysis on a `draw_phasor` call: either the start fails to resolve,
or the end fails to resolve (registry unchanged in both cases), or the built
record is inserted under the given name and returned. -/
lemma draw_phasor_eq (reg : Registry) (a : DrawArgs) :
    (∃ e, resolveStart reg a = .error e ∧ draw_phasor reg a = (reg, .error e)) ∨
    (∃ sx sy, resolveStart reg a = .ok (sx, sy) ∧
      ((∃ e, resolveEnd sx sy a = .error e ∧ draw_phasor reg a = (reg, .error e)) ∨
       (∃ ex ey, resolveEnd sx sy a = .ok (ex, ey) ∧
         draw_phasor reg a =
           (reg.insert a.name (mkRecord a sx sy ex ey), .ok (mkRecord a sx sy ex ey))))) := by
  rcases hs : resolveStart reg a with e | ⟨sx, sy⟩
  · exact .inl ⟨e, rfl, dp_start_error reg a e hs⟩
  · refine .inr ⟨sx, sy, rfl, ?_⟩
    rcases he : resolveEnd sx sy a with e | ⟨ex, ey⟩
    · exact .inl ⟨e, rfl, dp_end_error reg a sx sy e hs he⟩
    · exact .inr ⟨ex, ey, rfl, dp_ok reg a sx sy ex ey hs he⟩

/-- Inversion: a successful `draw_phasor` call resolved its start and end,
stored `mkRecord` of them, and inserted it under the argument name. -/
lemma dp_ok_inv {reg : Registry} {a : DrawArgs} {r : PhasorRecord}
    (hok : (draw_phasor reg a).2 = .ok r) :
    ∃ sx sy ex ey, resolveStart reg a = .ok (sx, sy) ∧ resolveEnd sx sy a = .ok (ex, ey) ∧
      r = mkRecord a sx sy ex ey ∧
      (draw_phasor reg a).1 = reg.insert a.name (mkRecord a sx sy ex ey) := by
  rcases draw_phasor_eq reg a with ⟨e, hs, hd⟩ | ⟨sx, sy, hs, ⟨e, he, hd⟩ | ⟨ex, ey, he, hd⟩⟩
  · rw [hd] at hok
    simp at hok
  · rw [hd] at hok
    simp at hok
  · rw [hd] at hok
    simp at hok
    exact ⟨sx, sy, ex, ey, hs, he, hok.symm, by rw [hd]⟩

/-- If the successful call's start and end resolutions are known, the returned
record is `mkRecord` of them. -/
lemma dp_ok_record {reg : Registry} {a : DrawArgs} {sx sy ex ey : ℝ} {r : PhasorRecord}
    (hs : resolveStart reg a = .ok (sx, sy)) (he : resolveEnd sx sy a = .ok (ex, ey))
    (hok : (draw_phasor reg a).2 = .ok r) : r = mkRecord a sx sy ex ey := by
  have h2 : (Except.ok (mkRecord a sx sy ex ey) : Except DrawError PhasorRecord) =
      Except.ok r := by
    rw [← hok, dp_ok reg a sx sy ex ey hs he]
  injection h2 with h3
  exact h3.symm

/-- When the anchor is absolute or names a present phasor, the start point
always resolves. -/
lemma resolveStart_ok (reg : Registry) (a : DrawArgs)
    (hres : a.start_ref = "abs" ∨ (reg a.start_ref).isSome) :
    ∃ sx sy, resolveStart reg a = .ok (sx, sy) := by
  unfold resolveStart
  by_cases habs : a.start_ref = "abs"
  · exact ⟨a.start_x, a.start_y, by rw [if_pos habs]⟩
  · rcases hres with h | h
    · exact absurd h habs
    · obtain ⟨A, hA⟩ := Option.isSome_iff_exists.mp h
      by_cases hrp : a.ref_point = "end"
      · exact ⟨A.end_x, A.end_y, by rw [if_neg habs]; simp only [hA]; rw [if_pos hrp]⟩
      · exact ⟨A.start_x, A.start_y, by rw [if_neg habs]; simp only [hA]; rw [if_neg hrp]⟩

/-- Claim C1: a successful add with a Polar geometry spec (magnitude `m`,
angle in degrees) and resolved start point `(sx, sy)` stores
`end = start + m·(cos, sin)` of the angle in radians, stores the Euclidean
distance between the stored end and start as `magnitude`, and stores
`arctan2` of the stored differences, converted to degrees, as `angle_deg`. -/
theorem polar_add_end_and_derived (reg : Registry) (a : DrawArgs) (m ang sx sy : ℝ)
    (hs : resolveStart reg a = .ok (sx, sy))
    (hex : a.end_x = none) (hey : a.end_y = none)
    (hm : a.magnitude = some m) (hang : a.angle = some ang)
    (r : PhasorRecord) (hok : (draw_phasor reg a).2 = .ok r) :
    r.start_x = sx ∧ r.start_y = sy ∧
    r.end_x = sx + m * Real.cos (radians ang) ∧
    r.end_y = sy + m * Real.sin (radians ang) ∧
    r.magnitude = Real.sqrt ((r.end_x - r.start_x) ^ 2 + (r.end_y - r.start_y) ^ 2) ∧
    r.angle_deg = degrees (arctan2 (r.end_y - r.start_y) (r.end_x - r.start_x)) := by
  have he : resolveEnd sx sy a =
      .ok (sx + m * Real.cos (radians ang), sy + m * Real.sin (radians ang)) := by
    unfold resolveEnd
    rw [hex, hey, hm, hang]
  have hr := dp_ok_record hs he hok
  subst hr
  exact ⟨rfl, rfl, rfl, rfl, rfl, rfl⟩

/-- Claim C1 witness: the demo phasor `Vs` (magnitude 1, angle 0). -/
theorem polar_add_end_and_derived_witness :
    vsRecord.start_x = 0 ∧ vsRecord.start_y = 0 ∧
    vsRecord.end_x = 0 + 1 * Real.cos (radians 0) ∧
    vsRecord.end_y = 0 + 1 * Real.sin (radians 0) ∧
    vsRecord.magnitude =
      Real.sqrt ((vsRecord.end_x - vsRecord.start_x) ^ 2 +
        (vsRecord.end_y - vsRecord.start_y) ^ 2) ∧
    vsRecord.angle_deg =
      degrees (arctan2 (vsRecord.end_y - vsRecord.start_y)
        (vsRecord.end_x - vsRecord.start_x)) :=
  polar_add_end_and_derived Registry.empty vsArgs 1 0 0 0 rfl rfl rfl rfl rfl vsRecord rfl

/-- Claim C5: a phasor whose anchor references an existing phasor `A` gets its
start point copied, unrecomputed, from `A`'s stored end point when
`ref_point = "end"` and from `A`'s stored start point when
`ref_point = "start"`. -/
theorem relative_start_copied (reg : Registry) (a : DrawArgs) (A : PhasorRecord)
    (h1 : a.start_ref ≠ "abs") (h2 : reg a.start_ref = some A)
    (r : PhasorRecord) (hok : (draw_phasor reg a).2 = .ok r) :
    (a.ref_point = "end" → r.start_x = A.end_x ∧ r.start_y = A.end_y) ∧
    (a.ref_point = "start" → r.start_x = A.start_x ∧ r.start_y = A.start_y) := by
  obtain ⟨sx, sy, ex, ey, hs, he, hr, -⟩ := dp_ok_inv hok
  subst hr
  unfold resolveStart at hs
  rw [if_neg h1] at hs
  simp only [h2] at hs
  by_cases hrp : a.ref_point = "end"
  · rw [if_pos hrp] at hs
    injection hs with hs2
    injection hs2 with hsx hsy
    constructor
    · intro _
      exact ⟨hsx.symm, hsy.symm⟩
    · intro hst
      rw [hst] at hrp
      exact absurd hrp (by decide)
  · rw [if_neg hrp] at hs
    injection hs with hs2
    injection hs2 with hsx hsy
    constructor
    · intro hend
      exact absurd hend hrp
    · intro _
      exact ⟨hsx.symm, hsy.symm⟩

/-- Claim C5 witness: `bArgs` references the end of `recA` stored in `regA`. -/
theorem relative_start_copied_witness :
    (bArgs.ref_point = "end" → bRecord.start_x = recA.end_x ∧ bRecord.start_y = recA.end_y) ∧
    (bArgs.ref_point = "start" →
      bRecord.start_x = recA.start_x ∧ bRecord.start_y = recA.start_y) :=
  relative_start_copied regA bArgs recA (by decide) rfl bRecord rfl

/-- Claim C2: an add whose anchor names a reference phasor absent from the registry
raises the unknown-reference `ValueError` and leaves the registry exactly as
it was. -/
theorem unknown_reference_error (reg : Registry) (a : DrawArgs)
    (h1 : a.start_ref ≠ "abs") (h2 : reg a.start_ref = none) :
    draw_phasor reg a = (reg, .error (.unknownReference a.start_ref)) := by
  unfold draw_phasor resolveStart
  rw [if_neg h1, h2]

/-- Claim C2 witness. -/
theorem unknown_reference_error_witness :
    draw_phasor Registry.empty { name := "B", start_ref := "X" } =
      (Registry.empty, .error (.unknownReference "X")) :=
  unknown_reference_error Registry.empty { name := "B", start_ref := "X" } (by decide) rfl

/-- Claim C7: `draw_phasor` changes at most the registry entry for the added name;
every other name still maps to the very same stored record afterwards. -/
theorem add_frame (reg : Registry) (a : DrawArgs) (n : String) (hn : n ≠ a.name) :
    (draw_phasor reg a).1 n = reg n := by
  rcases draw_phasor_eq reg a with ⟨e, _, hd⟩ | ⟨sx, sy, _, ⟨e, _, hd⟩ | ⟨ex, ey, _, hd⟩⟩ <;>
    rw [hd]
  simp [Registry.insert, hn]

/-- Claim C7 witness. -/
theorem add_frame_witness :
    (draw_phasor Registry.empty { name := "A", end_x := some 1, end_y := some 1 }).1 "B" =
      Registry.empty "B" :=
  add_frame Registry.empty { name := "A", end_x := some 1, end_y := some 1 } "B" (by decide)

/-- Claim C3 counterexample: an add that supplies neither an end point nor a
(magnitude, angle) pair but whose anchor names an absent phasor raises the
unknown-reference error, not the missing-geometry one. -/
theorem missing_geometry_counterexample :
    (draw_phasor Registry.empty unknownRefNoGeom).2 = .error (.unknownReference "Q") ∧
    DrawError.unknownReference "Q" ≠ DrawError.missingGeometry :=
  ⟨rfl, by decide⟩

/-- Claim C3 (amended): an add whose anchor resolves (absolute, or naming a
present phasor) and which supplies neither end coordinate and no complete
(magnitude, angle) pair raises the missing-geometry error and leaves the
registry exactly as it was. -/
theorem missing_geometry_error (reg : Registry) (a : DrawArgs)
    (hres : a.start_ref = "abs" ∨ (reg a.start_ref).isSome)
    (hex : a.end_x = none) (hey : a.end_y = none)
    (hma : a.magnitude = none ∨ a.angle = none) :
    draw_phasor reg a = (reg, .error .missingGeometry) := by
  obtain ⟨sx, sy, hs⟩ := resolveStart_ok reg a hres
  have he : resolveEnd sx sy a = .error .missingGeometry := by
    unfold resolveEnd
    rw [hex, hey]
    rcases hma with h | h
    · rw [h]
    · rw [h]
      rcases hm2 : a.magnitude with _ | m <;> rfl
  exact dp_end_error reg a sx sy _ hs he

/-- Claim C3 (amended) witness: absolute anchor, nothing supplied. -/
theorem missing_geometry_error_witness :
    draw_phasor Registry.empty noGeomArgs = (Registry.empty, .error .missingGeometry) :=
  missing_geometry_error Registry.empty noGeomArgs (Or.inl rfl) rfl rfl (Or.inl rfl)

/-- Claim C9 counterexample: both end coordinates and the magnitude are
absent, yet the raised error is the unknown-reference one, because the anchor
check runs first. -/
theorem missing_geometry_iff_counterexample :
    (draw_phasor Registry.empty unknownRefNoMag).2 = .error (.unknownReference "R") ∧
    DrawError.unknownReference "R" ≠ DrawError.missingGeometry :=
  ⟨rfl, by decide⟩

/-- Claim C9 (amended): when the anchor resolves, the missing-geometry error
is raised exactly when both `end_x` and `end_y` are absent and at least one of
`magnitude`, `angle` is absent; in particular a call supplying exactly one of
`end_x`, `end_y` while omitting `magnitude` or `angle` never raises it. -/
theorem missing_geometry_iff (reg : Registry) (a : DrawArgs)
    (hres : a.start_ref = "abs" ∨ (reg a.start_ref).isSome) :
    (draw_phasor reg a).2 = .error .missingGeometry ↔
      a.end_x = none ∧ a.end_y = none ∧ (a.magnitude = none ∨ a.angle = none) := by
  obtain ⟨sx, sy, hs⟩ := resolveStart_ok reg a hres
  rcases hex : a.end_x with _ | ex <;> rcases hey : a.end_y with _ | ey
  · rcases hm : a.magnitude with _ | m <;> rcases hang : a.angle with _ | ang
    · have he : resolveEnd sx sy a = .error .missingGeometry := by
        unfold resolveEnd
        rw [hex, hey, hm, hang]
      rw [dp_end_error reg a sx sy _ hs he]
      simp
    · have he : resolveEnd sx sy a = .error .missingGeometry := by
        unfold resolveEnd
        rw [hex, hey, hm, hang]
      rw [dp_end_error reg a sx sy _ hs he]
      simp [hm]
    · have he : resolveEnd sx sy a = .error .missingGeometry := by
        unfold resolveEnd
        rw [hex, hey, hm, hang]
      rw [dp_end_error reg a sx sy _ hs he]
      simp [hang]
    · have he : resolveEnd sx sy a =
          .ok (sx + m * Real.cos (radians ang), sy + m * Real.sin (radians ang)) := by
        unfold resolveEnd
        rw [hex, hey, hm, hang]
      rw [dp_ok reg a sx sy _ _ hs he]
      simp [hm, hang]
  · have he : resolveEnd sx sy a = .error .typeError := by
      unfold resolveEnd
      rw [hex, hey]
    rw [dp_end_error reg a sx sy _ hs he]
    simp [hey]
  · have he : resolveEnd sx sy a = .error .typeError := by
      unfold resolveEnd
      rw [hex, hey]
    rw [dp_end_error reg a sx sy _ hs he]
    simp [hex]
  · have he : resolveEnd sx sy a = .ok (ex, ey) := by
      unfold resolveEnd
      rw [hex, hey]
    rw [dp_ok reg a sx sy _ _ hs he]
    simp [hex]

/-- Claim C9 (amended) witness: instantiated at an input supplying only
`end_x`, where the right-hand side is false and no missing-geometry error is
raised. -/
theorem missing_geometry_iff_witness :
    (draw_phasor Registry.empty { name := "H", end_x := some 1 }).2 =
        .error .missingGeometry ↔
      DrawArgs.end_x { name := "H", end_x := some 1 } = none ∧
      DrawArgs.end_y { name := "H", end_x := some 1 } = none ∧
      (DrawArgs.magnitude { name := "H", end_x := some 1 } = none ∨
        DrawArgs.angle { name := "H", end_x := some 1 } = none) :=
  missing_geometry_iff Registry.empty { name := "H", end_x := some 1 } (Or.inl rfl)

/-- Claim C6: in any registry reachable by a sequence of adds from a fresh
manager, every stored record's `angle_deg` is `arctan2` of its stored
coordinate differences converted to degrees, and lies in `(-180, 180]`. -/
theorem stored_angle_invariant (reg : Registry) (h : Reachable reg) :
    ∀ n r, reg n = some r →
      r.angle_deg = degrees (arctan2 (r.end_y - r.start_y) (r.end_x - r.start_x)) ∧
      -180 < r.angle_deg ∧ r.angle_deg ≤ 180 := by
  induction h with
  | empty =>
    intro n r hn
    cases hn
  | step reg a _ ih =>
    intro n r hn
    rcases draw_phasor_eq reg a with ⟨e, _, hd⟩ | ⟨sx, sy, _, ⟨e, _, hd⟩ | ⟨ex, ey, _, hd⟩⟩
    · rw [hd] at hn
      exact ih n r hn
    · rw [hd] at hn
      exact ih n r hn
    · rw [hd] at hn
      have hn2 : Registry.insert reg a.name (mkRecord a sx sy ex ey) n = some r := hn
      unfold Registry.insert at hn2
      by_cases hna : n = a.name
      · rw [if_pos hna] at hn2
        injection hn2 with h2
        subst h2
        exact ⟨rfl, degrees_arctan2_mem _ _⟩
      · rw [if_neg hna] at hn2
        exact ih n r hn2

/-- Claim C6 witness: the registry after one Cartesian add. -/
theorem stored_angle_invariant_witness :
    (mkRecord cartArgs 0 0 1 0).angle_deg =
      degrees (arctan2 ((mkRecord cartArgs 0 0 1 0).end_y - (mkRecord cartArgs 0 0 1 0).start_y)
        ((mkRecord cartArgs 0 0 1 0).end_x - (mkRecord cartArgs 0 0 1 0).start_x)) ∧
    -180 < (mkRecord cartArgs 0 0 1 0).angle_deg ∧
    (mkRecord cartArgs 0 0 1 0).angle_deg ≤ 180 :=
  stored_angle_invariant (draw_phasor Registry.empty cartArgs).1
    (Reachable.step Registry.empty cartArgs Reachable.empty) "Vr" (mkRecord cartArgs 0 0 1 0) rfl

/-- Claim C10: when the anchor references another phasor present in the
registry, the caller-supplied `start_x`, `start_y` have no influence: two
calls differing only in them return identical results (same registry, same
stored record or error). -/
theorem start_args_ignored (reg : Registry) (a : DrawArgs)
    (h1 : a.start_ref ≠ "abs") (h2 : (reg a.start_ref).isSome) (v1 w1 v2 w2 : ℝ) :
    draw_phasor reg { a with start_x := v1, start_y := w1 } =
      draw_phasor reg { a with start_x := v2, start_y := w2 } := by
  obtain ⟨A, hA⟩ := Option.isSome_iff_exists.mp h2
  unfold draw_phasor resolveStart
  simp only [h1, hA, if_neg, ite_false, ne_eq, not_false_eq_true]
  rfl

/-- Claim C10 witness. -/
theorem start_args_ignored_witness :
    draw_phasor regA { b2Args with start_x := 1, start_y := 2 } =
      draw_phasor regA { b2Args with start_x := 3, start_y := 4 } :=
  start_args_ignored regA b2Args (by decide) rfl 1 2 3 4

/-- Claim C8 counterexample: with no caller-supplied color, a kind that is
neither voltage nor current (here "impedance") is stored with color "red" —
the very color that is the current-kind default, so there is no distinct
neutral default for other kinds. -/
theorem default_color_counterexample :
    Except.map PhasorRecord.color (draw_phasor Registry.empty impArgs).2 = .ok "red" ∧
    Except.map PhasorRecord.color (draw_phasor Registry.empty curArgs).2 = .ok "red" :=
  ⟨rfl, rfl⟩

/-- Claim C8 (amended): with no caller-supplied color the stored color is
"blue" when the lowercased kind is "voltage", and "red" for every other kind,
including "current". -/
theorem default_color_spec (reg : Registry) (a : DrawArgs)
    (hc : a.color = none) (r : PhasorRecord) (hok : (draw_phasor reg a).2 = .ok r) :
    (lower a.phasor_type = "voltage" → r.color = "blue") ∧
    (lower a.phasor_type ≠ "voltage" → r.color = "red") := by
  obtain ⟨sx, sy, ex, ey, hs, he, hr, -⟩ := dp_ok_inv hok
  subst hr
  constructor <;> intro h
  · show defaultColor a = "blue"
    unfold defaultColor
    simp only [hc]
    rw [if_pos h]
  · show defaultColor a = "red"
    unfold defaultColor
    simp only [hc]
    rw [if_neg h]

/-- Claim C8 (amended) witness: the voltage-kind input `vsArgs`. -/
theorem default_color_spec_witness :
    (lower vsArgs.phasor_type = "voltage" → vsRecord.color = "blue") ∧
    (lower vsArgs.phasor_type ≠ "voltage" → vsRecord.color = "red") :=
  default_color_spec Registry.empty vsArgs rfl vsRecord rfl

/-- Claim C4 counterexample: a polar add with magnitude 0 and angle 180 at the
absolute origin.  The normalization of 180 into `(-180, 180]` is 180 itself,
but the stored `angle_deg` is 0, so the angle is not recovered. -/
theorem polar_origin_counterexample :
    Except.map PhasorRecord.angle_deg (draw_phasor Registry.empty zeroPolarArgs).2 =
      .ok 0 ∧
    ((-180:ℝ) < 180 ∧ (180:ℝ) ≤ 180) ∧ (0:ℝ) ≠ 180 := by
  refine ⟨?_, ⟨by norm_num, le_refl 180⟩, by norm_num⟩
  have h2 : (mkRecord zeroPolarArgs 0 0 (0 + 0 * Real.cos (radians 180))
      (0 + 0 * Real.sin (radians 180))).angle_deg = 0 := by
    show degrees (arctan2 (0 + 0 * Real.sin (radians 180) - 0)
      (0 + 0 * Real.cos (radians 180) - 0)) = 0
    have hgx : (0:ℝ) + 0 * Real.cos (radians 180) - 0 = 0 := by ring
    have hgy : (0:ℝ) + 0 * Real.sin (radians 180) - 0 = 0 := by ring
    rw [hgx, hgy]
    have hz : arctan2 0 0 = 0 := by
      unfold arctan2
      have h0 : (⟨0, 0⟩ : ℂ) = 0 := rfl
      rw [h0, Complex.arg_zero]
    rw [hz]
    unfold degrees
    ring
  have h1 : (draw_phasor Registry.empty zeroPolarArgs).2 =
      .ok (mkRecord zeroPolarArgs 0 0 (0 + 0 * Real.cos (radians 180))
        (0 + 0 * Real.sin (radians 180))) := rfl
  rw [h1]
  show (Except.ok ((mkRecord zeroPolarArgs 0 0 (0 + 0 * Real.cos (radians 180))
      (0 + 0 * Real.sin (radians 180))).angle_deg) : Except DrawError ℝ) = .ok 0
  rw [h2]

/-- Claim C4 (amended): a polar-specified phasor anchored at the absolute
origin has `end = (m·cos θ, m·sin θ)` and recovers `magnitude = m` for every
`m ≥ 0`; for `m > 0` the stored angle lies in `(-180, 180]` and equals the
given angle modulo 360 degrees (for `m = 0` the stored angle is 0 instead). -/
theorem polar_origin_roundtrip (reg : Registry) (a : DrawArgs) (m ang : ℝ)
    (habs : a.start_ref = "abs") (hx : a.start_x = 0) (hy : a.start_y = 0)
    (hex : a.end_x = none) (hey : a.end_y = none)
    (hm : a.magnitude = some m) (hang : a.angle = some ang) (hm0 : 0 ≤ m)
    (r : PhasorRecord) (hok : (draw_phasor reg a).2 = .ok r) :
    r.end_x = m * Real.cos (radians ang) ∧ r.end_y = m * Real.sin (radians ang) ∧
    r.magnitude = m ∧
    (0 < m → -180 < r.angle_deg ∧ r.angle_deg ≤ 180 ∧
      ∃ k : ℤ, r.angle_deg = ang + 360 * k) ∧
    (m = 0 → r.angle_deg = 0) := by
  have hs : resolveStart reg a = .ok (0, 0) := by
    unfold resolveStart
    rw [if_pos habs, hx, hy]
  have he : resolveEnd 0 0 a =
      .ok (0 + m * Real.cos (radians ang), 0 + m * Real.sin (radians ang)) := by
    unfold resolveEnd
    rw [hex, hey, hm, hang]
  have hr := dp_ok_record hs he hok
  subst hr
  refine ⟨by show (0:ℝ) + m * Real.cos (radians ang) = m * Real.cos (radians ang); ring,
    by show (0:ℝ) + m * Real.sin (radians ang) = m * Real.sin (radians ang); ring, ?_, ?_, ?_⟩
  · show Real.sqrt ((0 + m * Real.cos (radians ang) - 0) ^ 2 +
      (0 + m * Real.sin (radians ang) - 0) ^ 2) = m
    have h1 : (0 + m * Real.cos (radians ang) - 0) ^ 2 +
        (0 + m * Real.sin (radians ang) - 0) ^ 2 =
        m ^ 2 * (Real.sin (radians ang) ^ 2 + Real.cos (radians ang) ^ 2) := by ring
    rw [h1, Real.sin_sq_add_cos_sq, mul_one, Real.sqrt_sq hm0]
  · intro hmpos
    refine ⟨(degrees_arctan2_mem _ _).1, (degrees_arctan2_mem _ _).2,
      ⟨⌊(Real.pi - radians ang) / (2 * Real.pi)⌋, ?_⟩⟩
    show degrees (arctan2 (0 + m * Real.sin (radians ang) - 0)
        (0 + m * Real.cos (radians ang) - 0)) =
      ang + 360 * ⌊(Real.pi - radians ang) / (2 * Real.pi)⌋
    have hc : (⟨0 + m * Real.cos (radians ang) - 0,
        0 + m * Real.sin (radians ang) - 0⟩ : ℂ) =
        (m : ℂ) * (Real.cos (radians ang) + Real.sin (radians ang) * Complex.I) := by
      apply Complex.ext <;> simp [Complex.cos_ofReal_re, Complex.sin_ofReal_re]
    have harg : arctan2 (0 + m * Real.sin (radians ang) - 0)
        (0 + m * Real.cos (radians ang) - 0) =
        radians ang + 2 * Real.pi * ⌊(Real.pi - radians ang) / (2 * Real.pi)⌋ := by
      unfold arctan2
      rw [hc, Complex.arg_real_mul _ hmpos, Complex.ofReal_cos, Complex.ofReal_sin]
      have hsub := Complex.arg_cos_add_sin_mul_I_sub (radians ang)
      linarith
    rw [harg]
    unfold degrees radians
    have hne : Real.pi ≠ 0 := ne_of_gt Real.pi_pos
    field_simp
    ring
  · intro hm00
    subst hm00
    show degrees (arctan2 (0 + 0 * Real.sin (radians ang) - 0)
      (0 + 0 * Real.cos (radians ang) - 0)) = 0
    have hgx : (0:ℝ) + 0 * Real.cos (radians ang) - 0 = 0 := by ring
    have hgy : (0:ℝ) + 0 * Real.sin (radians ang) - 0 = 0 := by ring
    rw [hgx, hgy]
    have hz : arctan2 0 0 = 0 := by
      unfold arctan2
      have h0 : (⟨0, 0⟩ : ℂ) = 0 := rfl
      rw [h0, Complex.arg_zero]
    rw [hz]
    unfold degrees
    ring

/-- Claim C4 (amended) witness: magnitude 1, angle 0 at the origin. -/
theorem polar_origin_roundtrip_witness :
    vsRecord.end_x = 1 * Real.cos (radians 0) ∧
    vsRecord.end_y = 1 * Real.sin (radians 0) ∧
    vsRecord.magnitude = 1 ∧
    ((0:ℝ) < 1 → -180 < vsRecord.angle_deg ∧ vsRecord.angle_deg ≤ 180 ∧
      ∃ k : ℤ, vsRecord.angle_deg = 0 + 360 * k) ∧
    ((1:ℝ) = 0 → vsRecord.angle_deg = 0) :=
  polar_origin_roundtrip Registry.empty vsArgs 1 0 rfl rfl rfl rfl rfl rfl rfl
    (by norm_num) vsRecord rfl

end PSPhasor
